import Mathlib

/-!
Verification of the rune agent core against its specification.

The Python sources are shallowly embedded: each embedded definition carries a
doc comment naming the source function it was translated from.  Stateful code
(the tool registry's instance cache, the session log files) is modelled by
explicit state passing; Python dicts are modelled by association lists with
dict semantics (assignment replaces the value at an existing key in place,
otherwise appends).  Parts of the repository whose code is not available are
modelled from the specification and say so in their doc comments.
-/

namespace Rune

/-! ## Python dict as an association list -/

/-- Lookup in a Python-dict model: first binding of the key wins
(the `dput` operation keeps keys unique, so this is the only binding). -/
def dget {α : Type} (m : List (String × α)) (k : String) : Option α :=
  match m with
  | [] => none
  | (k', v) :: rest => if k' = k then some v else dget rest k

/-- Python dict assignment `m[k] = v`: replace the value at an existing key
keeping its position, otherwise append the new binding. -/
def dput {α : Type} (m : List (String × α)) (k : String) (v : α) : List (String × α) :=
  match m with
  | [] => [(k, v)]
  | (k', v') :: rest => if k' = k then (k, v) :: rest else (k', v') :: dput rest k v

/-- Python `k in m` membership test. -/
def dhas {α : Type} (m : List (String × α)) (k : String) : Bool :=
  (dget m k).isSome

/-- Python `m.pop(k, None)`: drop every binding of `k`. -/
def ddel {α : Type} (m : List (String × α)) (k : String) : List (String × α) :=
  m.filter (fun p => p.1 != k)

/-- Left-biased choice on options, Python's `a or b` for non-falsy `a`. -/
def orO {α : Type} (a b : Option α) : Option α :=
  match a with
  | some x => some x
  | none => b

theorem dget_dput_self {α : Type} (m : List (String × α)) (k : String) (v : α) :
    dget (dput m k v) k = some v := by
  induction m with
  | nil => simp [dput, dget]
  | cons p rest ih =>
      by_cases h : p.1 = k
      · simp [dput, dget, h]
      · simp [dput, dget, h, ih]

theorem dget_dput_ne {α : Type} (m : List (String × α)) (k k' : String) (v : α)
    (h : k' ≠ k) : dget (dput m k v) k' = dget m k' := by
  induction m with
  | nil =>
      have hk : ¬k = k' := fun hh => h hh.symm
      simp [dput, dget, hk]
  | cons p rest ih =>
      by_cases hp : p.1 = k
      · subst hp
        have hk : ¬p.1 = k' := fun hh => h hh.symm
        simp [dput, dget, hk]
      · simp [dput, dget, hp, ih]

theorem dget_ddel_self {α : Type} (m : List (String × α)) (k : String) :
    dget (ddel m k) k = none := by
  induction m with
  | nil => simp [ddel, dget]
  | cons p rest ih =>
      by_cases h : p.1 = k
      · simpa [ddel, List.filter_cons, h] using ih
      · simp only [ddel, List.filter_cons] at ih ⊢
        have hb : (p.1 != k) = true := by simp [bne_iff_ne, h]
        simp [hb, dget, h, ih]

theorem dget_ddel_ne {α : Type} (m : List (String × α)) (k k' : String)
    (h : k' ≠ k) : dget (ddel m k) k' = dget m k' := by
  induction m with
  | nil => simp [ddel, dget]
  | cons p rest ih =>
      simp only [ddel, List.filter_cons] at ih ⊢
      by_cases hp : p.1 = k
      · have hb : (p.1 != k) = false := by simp [bne_iff_ne, hp]
        have hk : ¬p.1 = k' := by
          subst hp
          exact fun hh => h hh.symm
        simp [hb, dget, hk, ih]
      · have hb : (p.1 != k) = true := by simp [bne_iff_ne, hp]
        by_cases hp' : p.1 = k'
        · simp [hb, dget, hp', h]
        · simp [hb, dget, hp', ih]

theorem orO_some {α : Type} (x : α) (b : Option α) : orO (some x) b = some x := rfl

theorem orO_none {α : Type} (b : Option α) : orO none b = b := rfl

/-! ## Tool permissions and configuration

`rune/core/tools/base.py` and `rune/core/config.py` are not under src; the
slice of them the claims need is modelled from the spec. -/

/-- Modelled from the spec: the tool permission enum of rune/core/tools/base.py
(not under src). "Permissions (ALWAYS_ALLOW | ASK) live in configuration and are
looked up by tool name"; the src code `src/rune/acp/acp_agent_loop.py` refers to
the ALWAYS_ALLOW value as `ToolPermission.ALWAYS`. -/
inductive ToolPermission where
  | ALWAYS
  | ASK
deriving DecidableEq, Repr, BEq

/-- Modelled from the spec: the per-tool configuration record of
rune/core/tools/base.py (not under src), restricted to the one field the claims
inspect. `src/rune/acp/acp_agent_loop.py` constructs it as `BaseToolConfig()`
and then assigns `.permission`; the default is ASK (tools prompt unless
explicitly always-allowed). -/
structure BaseToolConfig where
  permission : ToolPermission := ToolPermission.ASK
deriving DecidableEq, Repr

/-- The default-constructed `BaseToolConfig()`. -/
def defaultBaseToolConfig : BaseToolConfig := {}

/-- Modelled from the spec: the slice of `RuneConfig` (rune/core/config.py, not
under src) used by the claims — the per-tool configuration table and the
enabled/disabled tool name filters. -/
structure RuneConfig where
  tools : List (String × BaseToolConfig) := []
  enabledTools : List String := []
  disabledTools : List String := []
deriving DecidableEq, Repr

/-! ## C1 — allow-always at the ACP approval gate

`_handle_permission_selection` lives in `src/rune/acp/acp_agent_loop.py`
(lines 244-263); the invocation-pipeline step that decides whether the approval
callback is invoked lives in rune/core/agent_loop.py, which is not under src,
and is modelled from the spec. -/

/-- The core's approval response enum (rune/core/types.py, not under src;
values YES and NO per the spec's `decision ∈ \x7byes, no\x7d`). -/
inductive ApprovalResponse where
  | YES
  | NO
deriving DecidableEq, Repr

/-- Embeds `RuneAcpAgentLoop._create_approval_callback._handle_permission_selection`
(src/rune/acp/acp_agent_loop.py). The Python matches the selected option id
string against the `ToolOption` string-enum values and, for allow-always,
mutates `session.agent_loop.config.tools[tool_name].permission` in place
(inserting a default `BaseToolConfig()` first when the key is absent); here the
updated configuration is returned alongside the `(response, message)` pair. -/
def handlePermissionSelection (cfg : RuneConfig) (optionId : String)
    (toolName : String) : (ApprovalResponse × Option String) × RuneConfig :=
  if optionId = "allow_once" then
    ((ApprovalResponse.YES, none), cfg)
  else if optionId = "allow_always" then
    let tools0 :=
      if dhas cfg.tools toolName then cfg.tools
      else dput cfg.tools toolName defaultBaseToolConfig
    let entry := (dget tools0 toolName).getD defaultBaseToolConfig
    let tools1 := dput tools0 toolName { entry with permission := ToolPermission.ALWAYS }
    ((ApprovalResponse.YES, none), { cfg with tools := tools1 })
  else if optionId = "reject_once" then
    ((ApprovalResponse.NO,
      some "User rejected the tool call, provide an alternative plan"), cfg)
  else
    ((ApprovalResponse.NO, some ("Unknown option: " ++ optionId)), cfg)

/-- Modelled from the spec: permission lookup by tool name (rune/core/tools/base.py
and rune/core/agent_loop.py are not under src) — "Permissions (ALWAYS_ALLOW | ASK)
live in configuration and are looked up by tool name". A tool with no
configuration entry defaults to ASK. -/
def toolPermission (cfg : RuneConfig) (toolName : String) : ToolPermission :=
  ((dget cfg.tools toolName).getD defaultBaseToolConfig).permission

/-- Modelled from the spec: step 3 of the tool invocation pipeline
(rune/core/agent_loop.py, not under src) — "If the tool is marked ASK and no
approval has been pre-granted, invoke the approval gate", and "When no approval
callback is installed (auto-approve profile), the gate is bypassed". -/
def approvalGateInvoked (cfg : RuneConfig) (toolName : String)
    (callbackInstalled : Bool) : Bool :=
  callbackInstalled && (toolPermission cfg toolName == ToolPermission.ASK)

/-- C1: selecting allow-always for tool T sets the live configuration entry
`tools[T].permission` to ALWAYS_ALLOW, returns YES for the current call, and on
the resulting configuration the approval gate is never invoked for T again
(whether or not a callback is installed). -/
theorem allow_always_persists_and_skips_gate (cfg : RuneConfig) (t : String) :
    toolPermission (handlePermissionSelection cfg "allow_always" t).2 t
      = ToolPermission.ALWAYS ∧
    (handlePermissionSelection cfg "allow_always" t).1.1 = ApprovalResponse.YES ∧
    ∀ callbackInstalled,
      approvalGateInvoked (handlePermissionSelection cfg "allow_always" t).2 t
        callbackInstalled = false := by
  refine ⟨?_, rfl, ?_⟩
  · simp [handlePermissionSelection, toolPermission, dget_dput_self]
  · intro b
    simp [approvalGateInvoked, handlePermissionSelection, toolPermission,
      dget_dput_self]
    intro
    rfl

/-! ## C2 — cancellation resolves the ACP prompt with stop reason "cancelled"

The `prompt` / `cancel` dispatch is embedded from `src/rune/acp/acp_agent_loop.py`
(lines 354-395 and 512-517); the behaviour of `AgentLoop.act` under a
cancellation signal is modelled from the spec (rune/core/agent_loop.py is not
under src). -/

/-- The event stream emitted by `AgentLoop.act`, per the spec's tagged event sum
(rune/core/types.py is not under src; only the tags matter to the claims). -/
inductive AgentEvent where
  | userMessage (content : String)
  | assistantDelta (content : String)
  | reasoningDelta (content : String)
  | toolCallEvt (toolName : String)
  | toolResultEvt (toolName : String)
  | toolStreamEvt (message : String)
  | compactStartEvt
  | compactEndEvt
deriving DecidableEq, Repr

/-- Terminal outcome of the `agent_loop_task` awaited by
`RuneAcpAgentLoop.prompt`: normal completion, an `asyncio.CancelledError`
raised by `RuneAcpAgentLoop.cancel` cancelling the task, or any other
exception. -/
inductive TaskOutcome where
  | completed
  | cancelledTask
  | failed (message : String)
deriving DecidableEq, Repr

/-- Embeds the try/except dispatch of `RuneAcpAgentLoop.prompt`
(src/rune/acp/acp_agent_loop.py lines 374-395): `asyncio.CancelledError` maps
to `PromptResponse(stop_reason="cancelled")`, any other exception to
`"refusal"`, normal completion to `"end_turn"`. -/
def promptStopReason : TaskOutcome → String
  | TaskOutcome.completed => "end_turn"
  | TaskOutcome.cancelledTask => "cancelled"
  | TaskOutcome.failed _ => "refusal"

/-- Modelled from the spec: `AgentLoop.act` under cancellation
(rune/core/agent_loop.py is not under src) — "Terminates `act` without emitting
further deltas". A run that would emit `events` uncancelled emits only the
events before the cancellation point when cancellation is signalled after `k`
events. -/
def actEmittedEvents (events : List AgentEvent) (cancelledAfter : Option Nat) :
    List AgentEvent :=
  match cancelledAfter with
  | none => events
  | some k => events.take k

/-- C2: when cancellation is signalled after `k` emitted events, the loop emits
exactly those first `k` events and nothing further (the remaining events of the
uncancelled run are never delivered), and the ACP prompt request resolves with
stop reason "cancelled". -/
theorem cancellation_stops_deltas_and_reports_cancelled
    (events : List AgentEvent) (k : Nat) (h : k ≤ events.length) :
    (actEmittedEvents events (some k)).length = k ∧
    (∃ rest, events = actEmittedEvents events (some k) ++ rest ∧
      rest.length = events.length - k) ∧
    promptStopReason TaskOutcome.cancelledTask = "cancelled" := by
  refine ⟨?_, ⟨events.drop k, ?_, ?_⟩, rfl⟩
  · simpa [actEmittedEvents] using h
  · simp [actEmittedEvents]
  · simp

/-- Witness for C2 at a concrete run: three events, cancellation after the
first; only one event is emitted. -/
theorem cancellation_stops_deltas_and_reports_cancelled_witness :
    (actEmittedEvents
        [AgentEvent.userMessage "hi", AgentEvent.assistantDelta "He",
         AgentEvent.assistantDelta "y"] (some 1)).length = 1 ∧
    (∃ rest,
      [AgentEvent.userMessage "hi", AgentEvent.assistantDelta "He",
       AgentEvent.assistantDelta "y"]
        = actEmittedEvents
            [AgentEvent.userMessage "hi", AgentEvent.assistantDelta "He",
             AgentEvent.assistantDelta "y"] (some 1) ++ rest ∧
      rest.length = 2) ∧
    promptStopReason TaskOutcome.cancelledTask = "cancelled" :=
  cancellation_stops_deltas_and_reports_cancelled
    [AgentEvent.userMessage "hi", AgentEvent.assistantDelta "He",
     AgentEvent.assistantDelta "y"] 1 (by decide)

/-! ## C3 — tool discovery order and name-collision handling

Embedded from `ToolManager.__init__`, `ToolManager._compute_search_paths` and
`ToolManager._iter_tool_classes` in `src/rune/core/tools/manager.py`
(lines 76-125). The filesystem scan of one search path
(`rglob` + `_load_tools_from_file`) is abstracted by a function from the path
to the ordered list of tool classes it yields. -/

/-- A discovered tool class: its `get_name()` and an identifier distinguishing
distinct class objects (so that two sources defining the same tool name yield
distinguishable classes). -/
structure ToolClass where
  name : String
  classId : Nat
deriving DecidableEq, Repr

/-- The de-duplication loop at the end of `ToolManager._compute_search_paths`:
keep the first occurrence of each resolved path, preserving order. -/
def dedupFirst (paths : List String) : List String :=
  paths.foldl (fun acc p => if p ∈ acc then acc else acc ++ [p]) []

/-- Embeds `ToolManager._compute_search_paths` (src/rune/core/tools/manager.py
lines 90-108): the builtin tool directory first, then the configured extra
search paths, then the per-project tools directory when it resolves, then the
per-user global tools directory; finally resolved paths are de-duplicated
keeping first occurrences. `resolve` abstracts `Path.resolve()`. -/
def computeSearchPaths (resolve : String → String) (defaultToolDir : String)
    (toolPaths : List String) (localToolsDir : Option String)
    (globalToolsDir : String) : List String :=
  dedupFirst
    (([defaultToolDir] ++ toolPaths ++ localToolsDir.toList ++ [globalToolsDir]).map
      resolve)

/-- Embeds `ToolManager._iter_tool_classes` (src/rune/core/tools/manager.py
lines 110-125): walk the search paths in order; `classesOf` abstracts the
per-path filesystem scan, yielding that path's tool classes in scan order. -/
def iterToolClasses (searchPaths : List String)
    (classesOf : String → List ToolClass) : List ToolClass :=
  (searchPaths.map classesOf).flatten

/-- Embeds the dict comprehension in `ToolManager.__init__`
(src/rune/core/tools/manager.py lines 81-83) building `_available` from the
iterated classes: Python dict semantics make the later class win on a repeated
`get_name()`. -/
def computeAvailable (classes : List ToolClass) : List (String × ToolClass) :=
  classes.foldl (fun acc cls => dput acc cls.name cls) []

/-- Embeds the logging behaviour of that same aggregation: neither the dict
comprehension in `ToolManager.__init__` (lines 81-83) nor
`ToolManager._iter_tool_classes` (lines 110-125) contains any logger call, so
no warning is produced on a name collision. -/
def discoveryCollisionWarnings (classes : List ToolClass) : List String :=
  match classes with
  | _ => []

/-- The last class in the discovery order carrying a given name. -/
def lastToolClassNamed (classes : List ToolClass) (k : String) : Option ToolClass :=
  classes.foldl (fun acc cls => if cls.name = k then some cls else acc) none

theorem dget_computeAvailable_foldl (classes : List ToolClass)
    (acc : List (String × ToolClass)) (k : String) :
    dget (classes.foldl (fun a cls => dput a cls.name cls) acc) k
      = classes.foldl (fun o cls => if cls.name = k then some cls else o)
          (dget acc k) := by
  induction classes generalizing acc with
  | nil => rfl
  | cons c rest ih =>
      simp only [List.foldl_cons]
      rw [ih]
      by_cases h : c.name = k
      · subst h
        rw [dget_dput_self]
        simp
      · rw [dget_dput_ne _ _ _ _ (fun hh => h hh.symm)]
        simp [h]

theorem dget_computeAvailable (classes : List ToolClass) (k : String) :
    dget (computeAvailable classes) k = lastToolClassNamed classes k := by
  simpa [computeAvailable, lastToolClassNamed, dget]
    using dget_computeAvailable_foldl classes [] k

theorem dedupFirst_foldl_of_nodup (paths : List String) (acc : List String)
    (hd : (acc ++ paths).Nodup) :
    paths.foldl (fun a p => if p ∈ a then a else a ++ [p]) acc = acc ++ paths := by
  induction paths generalizing acc with
  | nil => simp
  | cons p rest ih =>
      have hpa : p ∉ acc := by
        intro hmem
        have := List.disjoint_of_nodup_append hd
        exact this hmem (by simp)
      have hd' : ((acc ++ [p]) ++ rest).Nodup := by
        simpa [List.append_assoc] using hd
      simp only [List.foldl_cons, if_neg hpa]
      rw [ih (acc ++ [p]) hd']
      simp

/-- Counterexample for C3 as stated: two sources define a tool named
"read_file"; the later class silently replaces the earlier one and the
discovery emits no warning at all, while the claim demands a warning on each
collision. -/
theorem discovery_collision_emits_no_warning_cx :
    dget (computeAvailable [ToolClass.mk "read_file" 0, ToolClass.mk "read_file" 1])
        "read_file" = some (ToolClass.mk "read_file" 1) ∧
    discoveryCollisionWarnings
        [ToolClass.mk "read_file" 0, ToolClass.mk "read_file" 1] = [] := by
  constructor
  · rfl
  · rfl

/-- C3 (amended): tool discovery enumerates, in order, the fixed builtin tool
directory, the configured extra search paths, the per-project tools directory,
and the per-user global tools directory (de-duplicated keeping first
occurrences — stated here for pairwise-distinct resolved paths); for every tool
name defined by more than one source the class from the later source replaces
the earlier one; no warning is emitted on such a collision. -/
theorem tool_discovery_order_and_silent_override (defaultToolDir : String)
    (toolPaths : List String) (localToolsDir : Option String)
    (globalToolsDir : String) (classesOf : String → List ToolClass) (k : String)
    (hnd : ([defaultToolDir] ++ toolPaths ++ localToolsDir.toList
        ++ [globalToolsDir]).Nodup) :
    computeSearchPaths id defaultToolDir toolPaths localToolsDir globalToolsDir
      = [defaultToolDir] ++ toolPaths ++ localToolsDir.toList ++ [globalToolsDir] ∧
    dget (computeAvailable (iterToolClasses
          (computeSearchPaths id defaultToolDir toolPaths localToolsDir
            globalToolsDir) classesOf)) k
      = lastToolClassNamed (iterToolClasses
          (computeSearchPaths id defaultToolDir toolPaths localToolsDir
            globalToolsDir) classesOf) k ∧
    discoveryCollisionWarnings (iterToolClasses
        (computeSearchPaths id defaultToolDir toolPaths localToolsDir
          globalToolsDir) classesOf) = [] := by
  refine ⟨?_, dget_computeAvailable _ _, rfl⟩
  unfold computeSearchPaths dedupFirst
  rw [List.map_id]
  exact dedupFirst_foldl_of_nodup _ [] (by simpa using hnd)

/-- Witness for C3 (amended) at concrete directories: the four sources are
enumerated in order, and for a tool name defined by both the builtin directory
and the global directory the later (global) class is the one registered, with
no warning. -/
theorem tool_discovery_order_and_silent_override_witness :
    ([("/app/builtin" : String)] ++ ["/extra"] ++ (some "/proj/.rune/tools").toList
        ++ ["/home/u/.rune/tools"]).Nodup ∧
    (computeSearchPaths id "/app/builtin" ["/extra"] (some "/proj/.rune/tools")
        "/home/u/.rune/tools"
      = ["/app/builtin", "/extra", "/proj/.rune/tools", "/home/u/.rune/tools"] ∧
    dget (computeAvailable (iterToolClasses
          (computeSearchPaths id "/app/builtin" ["/extra"]
            (some "/proj/.rune/tools") "/home/u/.rune/tools")
          (fun p => if p = "/app/builtin" then [ToolClass.mk "grep" 0]
                    else if p = "/home/u/.rune/tools" then [ToolClass.mk "grep" 7]
                    else []))) "grep"
      = lastToolClassNamed (iterToolClasses
          (computeSearchPaths id "/app/builtin" ["/extra"]
            (some "/proj/.rune/tools") "/home/u/.rune/tools")
          (fun p => if p = "/app/builtin" then [ToolClass.mk "grep" 0]
                    else if p = "/home/u/.rune/tools" then [ToolClass.mk "grep" 7]
                    else [])) "grep" ∧
    discoveryCollisionWarnings (iterToolClasses
        (computeSearchPaths id "/app/builtin" ["/extra"]
          (some "/proj/.rune/tools") "/home/u/.rune/tools")
        (fun p => if p = "/app/builtin" then [ToolClass.mk "grep" 0]
                  else if p = "/home/u/.rune/tools" then [ToolClass.mk "grep" 7]
                  else [])) = []) :=
  ⟨by decide,
   tool_discovery_order_and_silent_override "/app/builtin" ["/extra"]
     (some "/proj/.rune/tools") "/home/u/.rune/tools"
     (fun p => if p = "/app/builtin" then [ToolClass.mk "grep" 0]
               else if p = "/home/u/.rune/tools" then [ToolClass.mk "grep" 7]
               else []) "grep" (by decide)⟩

/-! ## C5 / C9 — lazy instantiation, memoization and cache invalidation

Embedded from `ToolManager.get_tool_config`, `ToolManager.get`,
`ToolManager.reset_all` and `ToolManager.invalidate_tool` in
`src/rune/core/tools/manager.py` (lines 300-341). The mutable
`self._instances` dict and the live configuration read through
`self._config_getter` become explicit state. -/

/-- A constructed tool instance. `instanceId` models Python object identity:
each construction draws a fresh id from the state's counter, so two
constructions are never the identical instance. -/
structure ToolInstance where
  className : String
  cfg : BaseToolConfig
  instanceId : Nat
deriving DecidableEq, Repr

/-- Modelled from the spec: `BaseTool.from_config` (rune/core/tools/base.py is
not under src) — "from_config(cfg) → instance": constructs an instance of the
class from the resolved configuration. -/
def fromConfig (cls : ToolClass) (cfg : BaseToolConfig) (freshId : Nat) :
    ToolInstance :=
  { className := cls.name, cfg := cfg, instanceId := freshId }

/-- Explicit state of a `ToolManager`: the current value returned by
`self._config_getter`, the `_available` class table fixed at discovery, the
`_instances` memoization dict, and the fresh-identity counter. -/
structure ToolManagerState where
  config : RuneConfig
  available : List (String × ToolClass)
  instances : List (String × ToolInstance)
  nextInstanceId : Nat
deriving DecidableEq, Repr

/-- Embeds `ToolManager.get_tool_config` (src/rune/core/tools/manager.py lines
300-316): the tool's default configuration merged with the user overrides from
`config.tools`, the override winning on every field (Python `dict`-merge of the
two model dumps); with the modelled single-field `BaseToolConfig` this is the
override when present and the default otherwise. -/
def getToolConfig (cfg : RuneConfig) (toolName : String) : BaseToolConfig :=
  match dget cfg.tools toolName with
  | none => defaultBaseToolConfig
  | some overrides => overrides

/-- Result of `ToolManager.get`: the instance and the successor state, or the
`NoSuchToolError` the Python raises. -/
inductive GetResult where
  | ok (inst : ToolInstance) (s : ToolManagerState)
  | noSuchTool (message : String)
deriving DecidableEq, Repr

/-- Embeds `ToolManager.get` (src/rune/core/tools/manager.py lines 318-335):
return the memoized instance when present; otherwise raise `NoSuchToolError`
when the name is not in `_available`, else construct the instance through
`from_config` on the resolved tool configuration and memoize it. -/
def ToolManagerState.get (s : ToolManagerState) (toolName : String) : GetResult :=
  match dget s.instances toolName with
  | some inst => GetResult.ok inst s
  | none =>
    match dget s.available toolName with
    | none => GetResult.noSuchTool ("Unknown tool: " ++ toolName)
    | some cls =>
      let inst := fromConfig cls (getToolConfig s.config toolName) s.nextInstanceId
      GetResult.ok inst
        { s with
          instances := dput s.instances toolName inst,
          nextInstanceId := s.nextInstanceId + 1 }

/-- Embeds `ToolManager.reset_all` (src/rune/core/tools/manager.py lines
337-338): `self._instances.clear()`. -/
def ToolManagerState.resetAll (s : ToolManagerState) : ToolManagerState :=
  { s with instances := [] }

/-- Embeds `ToolManager.invalidate_tool` (src/rune/core/tools/manager.py lines
340-341): `self._instances.pop(tool_name, None)`. -/
def ToolManagerState.invalidateTool (s : ToolManagerState) (toolName : String) :
    ToolManagerState :=
  { s with instances := ddel s.instances toolName }

/-- A live configuration change: `self._config_getter` now returns `cfg`.
Nothing else in the manager state is touched. -/
def ToolManagerState.setConfig (s : ToolManagerState) (cfg : RuneConfig) :
    ToolManagerState :=
  { s with config := cfg }

/-- Well-formedness maintained by every manager operation: a memoized instance
exists only for a discovered tool name (instances are only ever inserted by
`get` after the `_available` check). -/
def WFInstances (s : ToolManagerState) : Prop :=
  ∀ k : String, (dget s.instances k).isSome = true →
    (dget s.available k).isSome = true

theorem get_ok_memoized (s : ToolManagerState) (t : String)
    (inst : ToolInstance) (s' : ToolManagerState)
    (h : s.get t = GetResult.ok inst s') :
    dget s'.instances t = some inst := by
  unfold ToolManagerState.get at h
  cases hmem : dget s.instances t with
  | some i =>
      rw [hmem] at h
      simp at h
      obtain ⟨h1, h2⟩ := h
      subst h1
      subst h2
      exact hmem
  | none =>
      rw [hmem] at h
      cases hav : dget s.available t with
      | none => rw [hav] at h; simp at h
      | some cls =>
          rw [hav] at h
          simp at h
          obtain ⟨h1, h2⟩ := h
          subst h1
          rw [← h2]
          simpa using dget_dput_self _ _ _

/-- C5: for a discovered tool name, the first `get` constructs the instance via
`from_config` on the resolved tool configuration and memoizes it; any `get` on
a state that already holds a memoized instance returns exactly that instance
with the state unchanged; `reset_all` empties the cache so the next `get`
re-constructs through `from_config`; and `get` on a name outside the available
tools raises `NoSuchToolError`. -/
theorem registry_get_memoizes_and_rejects_unknown (s : ToolManagerState)
    (t : String) (hwf : WFInstances s) :
    (∀ cls, dget s.available t = some cls → dget s.instances t = none →
      s.get t = GetResult.ok
        (fromConfig cls (getToolConfig s.config t) s.nextInstanceId)
        { s with
          instances := dput s.instances t
            (fromConfig cls (getToolConfig s.config t) s.nextInstanceId),
          nextInstanceId := s.nextInstanceId + 1 }) ∧
    (∀ inst, dget s.instances t = some inst → s.get t = GetResult.ok inst s) ∧
    (∀ inst s', s.get t = GetResult.ok inst s' → s'.get t = GetResult.ok inst s') ∧
    (s.resetAll.instances = [] ∧
      ∀ cls, dget s.available t = some cls →
        s.resetAll.get t = GetResult.ok
          (fromConfig cls (getToolConfig s.config t) s.nextInstanceId)
          { s.resetAll with
            instances := dput [] t
              (fromConfig cls (getToolConfig s.config t) s.nextInstanceId),
            nextInstanceId := s.nextInstanceId + 1 }) ∧
    (dget s.available t = none →
      s.get t = GetResult.noSuchTool ("Unknown tool: " ++ t)) := by
  refine ⟨?_, ?_, ?_, ⟨rfl, ?_⟩, ?_⟩
  · intro cls hav hnone
    unfold ToolManagerState.get
    rw [hnone, hav]
  · intro inst hsome
    unfold ToolManagerState.get
    rw [hsome]
  · intro inst s' h
    have hmem := get_ok_memoized s t inst s' h
    unfold ToolManagerState.get
    rw [hmem]
  · intro cls hav
    unfold ToolManagerState.get
    simp only [ToolManagerState.resetAll]
    rw [show dget ([] : List (String × ToolInstance)) t = none from rfl, hav]
  · intro hav
    have hinst : dget s.instances t = none := by
      cases hmem : dget s.instances t with
      | none => rfl
      | some i =>
          have := hwf t (by rw [hmem]; rfl)
          rw [hav] at this
          simp at this
    unfold ToolManagerState.get
    rw [hinst, hav]

/-- Witness for C5 at a concrete manager state: one discovered tool "bash", an
empty cache; the first `get` constructs and memoizes, and `get` of the
undiscovered name "grep" raises `NoSuchToolError`. -/
theorem registry_get_memoizes_and_rejects_unknown_witness :
    WFInstances
      { config := {}, available := [("bash", ToolClass.mk "bash" 3)],
        instances := [], nextInstanceId := 0 } ∧
    ToolManagerState.get
      { config := {}, available := [("bash", ToolClass.mk "bash" 3)],
        instances := [], nextInstanceId := 0 } "grep"
      = GetResult.noSuchTool "Unknown tool: grep" := by
  have hwf : WFInstances
      { config := {}, available := [("bash", ToolClass.mk "bash" 3)],
        instances := [], nextInstanceId := 0 } := by
    intro k h
    simp [dget] at h
  exact ⟨hwf,
    (registry_get_memoizes_and_rejects_unknown
      { config := {}, available := [("bash", ToolClass.mk "bash" 3)],
        instances := [], nextInstanceId := 0 } "grep" hwf).2.2.2.2 (by rfl)⟩

/-- C9: once `get` has produced an instance, later `get` calls return the
identical instance even after the live configuration changes; the cached entry
is removed exactly by `reset_all` or `invalidate_tool` (a `get` of a different
name leaves it untouched); and after `invalidate_tool` the next `get` re-runs
`from_config` against the configuration current at that point. -/
theorem cached_instance_ignores_config_change (s : ToolManagerState)
    (t : String) (inst : ToolInstance) (s' : ToolManagerState)
    (h : s.get t = GetResult.ok inst s') :
    (∀ cfg2, (s'.setConfig cfg2).get t = GetResult.ok inst (s'.setConfig cfg2)) ∧
    dget (s'.invalidateTool t).instances t = none ∧
    (s'.resetAll).instances = [] ∧
    (∀ u, u ≠ t → ∀ inst2 s'', s'.get u = GetResult.ok inst2 s'' →
      dget s''.instances t = some inst) ∧
    (∀ cfg2 cls, dget s'.available t = some cls →
      ((s'.setConfig cfg2).invalidateTool t).get t
        = GetResult.ok
            (fromConfig cls (getToolConfig cfg2 t) s'.nextInstanceId)
            { ((s'.setConfig cfg2).invalidateTool t) with
              instances := dput ((s'.invalidateTool t).instances) t
                (fromConfig cls (getToolConfig cfg2 t) s'.nextInstanceId),
              nextInstanceId := s'.nextInstanceId + 1 }) := by
  have hmem := get_ok_memoized s t inst s' h
  refine ⟨?_, ?_, rfl, ?_, ?_⟩
  · intro cfg2
    unfold ToolManagerState.get
    simp only [ToolManagerState.setConfig]
    rw [hmem]
  · simp only [ToolManagerState.invalidateTool]
    exact dget_ddel_self _ _
  · intro u hu inst2 s'' h2
    unfold ToolManagerState.get at h2
    cases hmem2 : dget s'.instances u with
    | some i =>
        rw [hmem2] at h2
        simp at h2
        rw [← h2.2]
        exact hmem
    | none =>
        rw [hmem2] at h2
        cases hav : dget s'.available u with
        | none => rw [hav] at h2; simp at h2
        | some cls =>
            rw [hav] at h2
            simp at h2
            rw [← h2.2]
            simp only []
            rw [dget_dput_ne _ _ _ _ (fun hh => hu hh.symm)]
            exact hmem
  · intro cfg2 cls hav
    unfold ToolManagerState.get
    simp only [ToolManagerState.setConfig, ToolManagerState.invalidateTool]
    rw [dget_ddel_self, hav]

/-- Witness for C9 at a concrete run: discover "bash", `get` it once, then
change the configured permission; `get` still returns the originally
constructed instance on the configuration-changed state. -/
theorem cached_instance_ignores_config_change_witness :
    ToolManagerState.get
      { config := {}, available := [("bash", ToolClass.mk "bash" 3)],
        instances := [], nextInstanceId := 0 } "bash"
      = GetResult.ok
          (fromConfig (ToolClass.mk "bash" 3) defaultBaseToolConfig 0)
          { config := {}, available := [("bash", ToolClass.mk "bash" 3)],
            instances :=
              [("bash", fromConfig (ToolClass.mk "bash" 3) defaultBaseToolConfig 0)],
            nextInstanceId := 1 } ∧
    (ToolManagerState.setConfig
        { config := {}, available := [("bash", ToolClass.mk "bash" 3)],
          instances :=
            [("bash", fromConfig (ToolClass.mk "bash" 3) defaultBaseToolConfig 0)],
          nextInstanceId := 1 }
        { tools := [("bash", { permission := ToolPermission.ALWAYS })] }).get "bash"
      = GetResult.ok
          (fromConfig (ToolClass.mk "bash" 3) defaultBaseToolConfig 0)
          (ToolManagerState.setConfig
            { config := {}, available := [("bash", ToolClass.mk "bash" 3)],
              instances :=
                [("bash", fromConfig (ToolClass.mk "bash" 3) defaultBaseToolConfig 0)],
              nextInstanceId := 1 }
            { tools := [("bash", { permission := ToolPermission.ALWAYS })] }) := by
  have hget : ToolManagerState.get
      { config := {}, available := [("bash", ToolClass.mk "bash" 3)],
        instances := [], nextInstanceId := 0 } "bash"
      = GetResult.ok
          (fromConfig (ToolClass.mk "bash" 3) defaultBaseToolConfig 0)
          { config := {}, available := [("bash", ToolClass.mk "bash" 3)],
            instances :=
              [("bash", fromConfig (ToolClass.mk "bash" 3) defaultBaseToolConfig 0)],
            nextInstanceId := 1 } := by rfl
  exact ⟨hget,
    (cached_instance_ignores_config_change
      { config := {}, available := [("bash", ToolClass.mk "bash" 3)],
        instances := [], nextInstanceId := 0 } "bash"
      (fromConfig (ToolClass.mk "bash" 3) defaultBaseToolConfig 0)
      { config := {}, available := [("bash", ToolClass.mk "bash" 3)],
        instances :=
          [("bash", fromConfig (ToolClass.mk "bash" 3) defaultBaseToolConfig 0)],
        nextInstanceId := 1 } hget).1
      { tools := [("bash", { permission := ToolPermission.ALWAYS })] }⟩

/-! ## C6 — enabled_tools / disabled_tools filtering

Embedded from `ToolManager.available_tools` in `src/rune/core/tools/manager.py`
(lines 181-195). -/

/-- Modelled from the spec: `name_matches` (rune/core/utils.py is not under
src) — "each entry matches a name by exact, glob, or regex (`re:`-prefixed)".
The single-entry matcher (exact-or-glob-or-regex) is abstracted as the
parameter `entryMatches`; a name matches a pattern list when it matches some
entry of it. -/
def nameMatches (entryMatches : String → String → Bool) (name : String)
    (patterns : List String) : Bool :=
  patterns.any (fun p => entryMatches name p)

/-- Embeds `ToolManager.available_tools` (src/rune/core/tools/manager.py lines
181-195): when `enabled_tools` is truthy (non-empty) keep exactly the
discovered tools matching it; otherwise when `disabled_tools` is truthy keep
exactly the discovered tools not matching it; otherwise all discovered tools. -/
def availableTools (entryMatches : String → String → Bool) (cfg : RuneConfig)
    (discovered : List (String × ToolClass)) : List (String × ToolClass) :=
  if cfg.enabledTools ≠ [] then
    discovered.filter (fun p => nameMatches entryMatches p.1 cfg.enabledTools)
  else if cfg.disabledTools ≠ [] then
    discovered.filter (fun p => !(nameMatches entryMatches p.1 cfg.disabledTools))
  else
    discovered

/-- C6: with a non-empty `enabled_tools` the available tools are exactly the
discovered ones matching some entry, and `disabled_tools` is ignored; with
`enabled_tools` empty and `disabled_tools` non-empty they are exactly the
discovered ones matching no entry of `disabled_tools`; with both empty, all
discovered tools are available. Stated for any entry matcher (exact, glob or
regex). -/
theorem available_tools_filtering (entryMatches : String → String → Bool)
    (cfg : RuneConfig) (discovered : List (String × ToolClass))
    (entry : String × ToolClass) :
    (cfg.enabledTools ≠ [] →
      ((entry ∈ availableTools entryMatches cfg discovered ↔
        entry ∈ discovered ∧
          nameMatches entryMatches entry.1 cfg.enabledTools = true) ∧
       availableTools entryMatches cfg discovered
         = availableTools entryMatches { cfg with disabledTools := [] } discovered)) ∧
    (cfg.enabledTools = [] → cfg.disabledTools ≠ [] →
      (entry ∈ availableTools entryMatches cfg discovered ↔
        entry ∈ discovered ∧
          nameMatches entryMatches entry.1 cfg.disabledTools = false)) ∧
    (cfg.enabledTools = [] → cfg.disabledTools = [] →
      availableTools entryMatches cfg discovered = discovered) := by
  refine ⟨?_, ?_, ?_⟩
  · intro hen
    constructor
    · simp [availableTools, hen, List.mem_filter]
    · simp [availableTools, hen]
  · intro hen hdis
    simp [availableTools, hen, hdis, List.mem_filter]
  · intro hen hdis
    simp [availableTools, hen, hdis]

/-- Witness for C6 at a concrete matcher (string equality) and configuration:
with `enabled_tools = ["grep"]`, the discovered tool ("grep", ·) is available
iff it is discovered and matches, even though `disabled_tools = ["grep"]` would
exclude it. -/
theorem available_tools_filtering_witness :
    (["grep"] : List String) ≠ [] ∧
    ((("grep", ToolClass.mk "grep" 0)
        ∈ availableTools (fun n p => n == p)
            { tools := [], enabledTools := ["grep"], disabledTools := ["grep"] }
            [("grep", ToolClass.mk "grep" 0), ("bash", ToolClass.mk "bash" 1)] ↔
      ("grep", ToolClass.mk "grep" 0)
        ∈ [("grep", ToolClass.mk "grep" 0), ("bash", ToolClass.mk "bash" 1)] ∧
      nameMatches (fun n p => n == p) "grep" ["grep"] = true) ∧
     availableTools (fun n p => n == p)
        { tools := [], enabledTools := ["grep"], disabledTools := ["grep"] }
        [("grep", ToolClass.mk "grep" 0), ("bash", ToolClass.mk "bash" 1)]
      = availableTools (fun n p => n == p)
          { tools := [], enabledTools := ["grep"], disabledTools := [] }
          [("grep", ToolClass.mk "grep" 0), ("bash", ToolClass.mk "bash" 1)]) :=
  ⟨by decide,
   (available_tools_filtering (fun n p => n == p)
      { tools := [], enabledTools := ["grep"], disabledTools := ["grep"] }
      [("grep", ToolClass.mk "grep" 0), ("bash", ToolClass.mk "bash" 1)]
      ("grep", ToolClass.mk "grep" 0)).1 (by decide)⟩

/-! ## C10 — agent-profile discovery: builtin override vs first-wins

Embedded from `AgentManager._discover_agents` in
`src/rune/core/agents/manager.py` (lines 100-123). `loaded` is the sequence of
profiles that `_try_load_agent` successfully parsed, in search-path order and,
within a path, file order. -/

/-- A parsed agent profile: its declared name and an identifier distinguishing
profiles parsed from distinct files. -/
structure AgentProfile where
  name : String
  profileId : Nat
deriving DecidableEq, Repr

/-- Embeds `AgentManager._discover_agents` (src/rune/core/agents/manager.py
lines 100-123): start from the builtin table; for each successfully loaded
profile, a profile whose name is a builtin name is assigned unconditionally
(overriding), a duplicate of an already-present non-builtin name is skipped
(`continue`), and otherwise the profile is added. -/
def discoverAgents (builtins : List (String × AgentProfile))
    (loaded : List AgentProfile) : List (String × AgentProfile) :=
  loaded.foldl
    (fun acc agent =>
      if dhas builtins agent.name then dput acc agent.name agent
      else if dhas acc agent.name then acc
      else dput acc agent.name agent)
    builtins

/-- The last loaded profile carrying a given name. -/
def lastAgentNamed (loaded : List AgentProfile) (k : String) : Option AgentProfile :=
  loaded.foldl (fun acc a => if a.name = k then some a else acc) none

/-- The first loaded profile carrying a given name. -/
def firstAgentNamed (loaded : List AgentProfile) (k : String) : Option AgentProfile :=
  loaded.find? (fun a => a.name == k)

theorem discoverAgents_foldl_builtin (builtins : List (String × AgentProfile))
    (k : String) (hk : dhas builtins k = true) (loaded : List AgentProfile)
    (acc : List (String × AgentProfile)) :
    dget (loaded.foldl
      (fun acc agent =>
        if dhas builtins agent.name then dput acc agent.name agent
        else if dhas acc agent.name then acc
        else dput acc agent.name agent) acc) k
      = loaded.foldl (fun o a => if a.name = k then some a else o) (dget acc k) := by
  induction loaded generalizing acc with
  | nil => rfl
  | cons a rest ih =>
      simp only [List.foldl_cons]
      rw [ih]
      by_cases hn : a.name = k
      · rw [if_pos hn]
        rw [hn, if_pos hk]
        rw [dget_dput_self]
      · rw [if_neg hn]
        by_cases hb : dhas builtins a.name = true
        · rw [if_pos hb, dget_dput_ne _ _ _ _ (fun hh => hn hh.symm)]
        · rw [if_neg hb]
          by_cases ha : dhas acc a.name = true
          · rw [if_pos ha]
          · rw [if_neg ha, dget_dput_ne _ _ _ _ (fun hh => hn hh.symm)]

theorem orO_none_right {α : Type} (a : Option α) : orO a none = a := by
  cases a <;> rfl

theorem firstAgentNamed_cons_pos (a : AgentProfile) (rest : List AgentProfile)
    (k : String) (hn : a.name = k) :
    firstAgentNamed (a :: rest) k = some a := by
  have hb : (a.name == k) = true := by simp [hn]
  simp [firstAgentNamed, List.find?, hb]

theorem firstAgentNamed_cons_neg (a : AgentProfile) (rest : List AgentProfile)
    (k : String) (hn : ¬a.name = k) :
    firstAgentNamed (a :: rest) k = firstAgentNamed rest k := by
  have hb : (a.name == k) = false := by simp [hn]
  simp [firstAgentNamed, List.find?, hb]

theorem lastNamed_foldl_init (k : String) (loaded : List AgentProfile)
    (init : Option AgentProfile) :
    loaded.foldl (fun o a => if a.name = k then some a else o) init
      = orO (lastAgentNamed loaded k) init := by
  induction loaded generalizing init with
  | nil => rfl
  | cons a rest ih =>
      simp only [lastAgentNamed, List.foldl_cons] at ih ⊢
      rw [ih (if a.name = k then some a else init),
        ih (if a.name = k then some a else none)]
      cases hrest : rest.foldl (fun o a => if a.name = k then some a else o) none with
      | none => by_cases hn : a.name = k <;> simp [hn, hrest, orO]
      | some v => by_cases hn : a.name = k <;> simp [hn, hrest, orO]

theorem discoverAgents_foldl_custom (builtins : List (String × AgentProfile))
    (k : String) (hk : dhas builtins k = false) (loaded : List AgentProfile)
    (acc : List (String × AgentProfile)) :
    dget (loaded.foldl
      (fun acc agent =>
        if dhas builtins agent.name then dput acc agent.name agent
        else if dhas acc agent.name then acc
        else dput acc agent.name agent) acc) k
      = orO (dget acc k) (firstAgentNamed loaded k) := by
  induction loaded generalizing acc with
  | nil =>
      simp only [List.foldl_nil]
      rw [show firstAgentNamed [] k = none from rfl, orO_none_right]
  | cons a rest ih =>
      simp only [List.foldl_cons]
      by_cases hn : a.name = k
      · rw [firstAgentNamed_cons_pos a rest k hn]
        rw [hn, if_neg (by simp [hk])]
        cases h : dget acc k with
        | some v =>
            have hhas : dhas acc k = true := by simp [dhas, h]
            rw [if_pos hhas, ih, h]
            cases firstAgentNamed rest k with
            | none => simp [orO]
            | some w => simp [orO]
        | none =>
            have hhas : ¬dhas acc k = true := by simp [dhas, h]
            rw [if_neg hhas, ih, dget_dput_self]
            cases firstAgentNamed rest k with
            | none => simp [orO]
            | some w => simp [orO]
      · rw [firstAgentNamed_cons_neg a rest k hn]
        by_cases hb : dhas builtins a.name = true
        · rw [if_pos hb, ih, dget_dput_ne _ _ _ _ (fun hh => hn hh.symm)]
        · rw [if_neg hb]
          by_cases ha : dhas acc a.name = true
          · rw [if_pos ha, ih]
          · rw [if_neg ha, ih, dget_dput_ne _ _ _ _ (fun hh => hn hh.symm)]

/-- C10: in agent-profile discovery, a TOML profile whose name is a builtin
agent's name replaces the builtin (the last such file wins over the builtin and
over earlier files), while for a non-builtin name the first loaded profile wins
and every later duplicate is skipped. -/
theorem agent_discovery_builtin_override_custom_first_wins
    (builtins : List (String × AgentProfile)) (loaded : List AgentProfile)
    (k : String) :
    (dhas builtins k = true →
      dget (discoverAgents builtins loaded) k
        = orO (lastAgentNamed loaded k) (dget builtins k)) ∧
    (dhas builtins k = false →
      dget (discoverAgents builtins loaded) k = firstAgentNamed loaded k) := by
  constructor
  · intro hk
    unfold discoverAgents
    rw [discoverAgents_foldl_builtin builtins k hk loaded builtins]
    exact lastNamed_foldl_init k loaded (dget builtins k)
  · intro hk
    unfold discoverAgents
    rw [discoverAgents_foldl_custom builtins k hk loaded builtins]
    have hnone : dget builtins k = none := by
      simp [dhas] at hk
      cases h : dget builtins k with
      | none => rfl
      | some v => rw [h] at hk; simp at hk
    rw [hnone]
    rfl

/-- Witness for C10 at a concrete discovery: builtin "plan" is replaced by the
loaded TOML profile named "plan", and of two loaded profiles named "review"
(not builtin) the first wins. -/
theorem agent_discovery_builtin_override_custom_first_wins_witness :
    (dhas [("plan", AgentProfile.mk "plan" 0)] "plan" = true ∧
      dget (discoverAgents [("plan", AgentProfile.mk "plan" 0)]
          [AgentProfile.mk "plan" 10, AgentProfile.mk "review" 11,
           AgentProfile.mk "review" 12]) "plan"
        = orO (lastAgentNamed
            [AgentProfile.mk "plan" 10, AgentProfile.mk "review" 11,
             AgentProfile.mk "review" 12] "plan")
            (dget [("plan", AgentProfile.mk "plan" 0)] "plan")) ∧
    (dhas [("plan", AgentProfile.mk "plan" 0)] "review" = false ∧
      dget (discoverAgents [("plan", AgentProfile.mk "plan" 0)]
          [AgentProfile.mk "plan" 10, AgentProfile.mk "review" 11,
           AgentProfile.mk "review" 12]) "review"
        = firstAgentNamed
            [AgentProfile.mk "plan" 10, AgentProfile.mk "review" 11,
             AgentProfile.mk "review" 12] "review") :=
  ⟨⟨by decide,
    (agent_discovery_builtin_override_custom_first_wins
      [("plan", AgentProfile.mk "plan" 0)]
      [AgentProfile.mk "plan" 10, AgentProfile.mk "review" 11,
       AgentProfile.mk "review" 12] "plan").1 (by decide)⟩,
   ⟨by decide,
    (agent_discovery_builtin_override_custom_first_wins
      [("plan", AgentProfile.mk "plan" 0)]
      [AgentProfile.mk "plan" 10, AgentProfile.mk "review" 11,
       AgentProfile.mk "review" 12] "review").2 (by decide)⟩⟩

/-! ## A small JSON model

`json.dumps` and the message `model_dump` serializations used by the Ollama
backend (`src/rune/core/llm/backend/ollama.py`) and the session logger
(`src/rune/core/session/session_logger.py`). -/

/-- A JSON document. -/
inductive Json where
  | null
  | boolVal (b : Bool)
  | numVal (n : Int)
  | strVal (s : String)
  | arrVal (items : List Json)
  | objVal (fields : List (String × Json))
deriving BEq

/-- Escaping of one character inside a JSON string literal. -/
def escapeJsonChar (c : Char) : String :=
  if c = '"' then "\\\""
  else if c = '\\' then "\\\\"
  else if c = '\n' then "\\n"
  else if c = '\t' then "\\t"
  else if c = '\r' then "\\r"
  else String.singleton c

/-- Escaping of a JSON string literal's body. -/
def escapeJsonString (s : String) : String :=
  s.data.foldl (fun acc c => acc ++ escapeJsonChar c) ""

mutual

/-- `json.dumps` with its default separators. -/
def Json.dumps : Json → String
  | Json.null => "null"
  | Json.boolVal true => "true"
  | Json.boolVal false => "false"
  | Json.numVal n => toString n
  | Json.strVal s => "\"" ++ escapeJsonString s ++ "\""
  | Json.arrVal items => "[" ++ Json.dumpsItems items ++ "]"
  | Json.objVal fields => "\x7b" ++ Json.dumpsFields fields ++ "\x7d"

/-- Comma-separated array elements. -/
def Json.dumpsItems : List Json → String
  | [] => ""
  | [x] => Json.dumps x
  | x :: y :: rest => Json.dumps x ++ ", " ++ Json.dumpsItems (y :: rest)

/-- Comma-separated object members. -/
def Json.dumpsFields : List (String × Json) → String
  | [] => ""
  | [kv] => "\"" ++ escapeJsonString kv.1 ++ "\": " ++ Json.dumps kv.2
  | kv :: kv2 :: rest =>
      "\"" ++ escapeJsonString kv.1 ++ "\": " ++ Json.dumps kv.2 ++ ", "
        ++ Json.dumpsFields (kv2 :: rest)

end

/-! ## Core message types

rune/core/types.py is not under src; the record shapes below are modelled from
the spec's data model (§3 Message, ToolCall, Usage) and carry exactly the
fields the claims inspect. -/

/-- Message roles. -/
inductive Role where
  | system
  | user
  | assistant
  | tool
deriving DecidableEq, Repr, BEq

/-- The spec's `function: \x7bname, arguments\x7d` of a ToolCall; `arguments`
is a JSON document encoded as a string. -/
structure FunctionCall where
  name : String
  arguments : String
deriving DecidableEq, Repr, BEq

/-- The spec's ToolCall record. -/
structure ToolCall where
  id : String
  function : FunctionCall
  index : Nat
deriving DecidableEq, Repr, BEq

/-- The spec's Message record, restricted to the fields the claims inspect. -/
structure LLMMessage where
  role : Role
  content : Option String := none
  toolCalls : Option (List ToolCall) := none
deriving DecidableEq, Repr, BEq

/-- The spec's Usage record. -/
structure LLMUsage where
  promptTokens : Int
  completionTokens : Int
deriving DecidableEq, Repr, BEq

/-- One backend delivery: a (partial) message and optional usage. -/
structure LLMChunk where
  message : LLMMessage
  usage : Option LLMUsage := none
deriving DecidableEq, Repr, BEq

/-! ## C7 / C4 — the Ollama backend's `complete`

Embedded from `OllamaBackend.complete` in `src/rune/core/llm/backend/ollama.py`
(lines 78-138); the wire response of `AsyncClient.chat` is modelled by
`OllamaChatResponse`. -/

/-- The `function` member of a tool call in an Ollama chat response: a name and
the arguments as a parsed JSON value (the ollama client hands over a mapping,
not a string). -/
structure OllamaFunction where
  name : String
  arguments : Json

/-- A tool call in an Ollama chat response. -/
structure OllamaToolCall where
  function : OllamaFunction

/-- The message of an Ollama chat response. An absent `tool_calls` and an
empty list are both falsy in the Python source and behave identically, so the
absent case is modelled as the empty list. -/
structure OllamaMessage where
  content : Option String := none
  toolCalls : List OllamaToolCall := []

/-- A non-streaming Ollama chat response with its token accounting fields. -/
structure OllamaChatResponse where
  message : OllamaMessage
  promptEvalCount : Option Int := none
  evalCount : Option Int := none

/-- Embeds the `for i, tc in enumerate(message.tool_calls)` loop of
`OllamaBackend.complete` (src/rune/core/llm/backend/ollama.py lines 105-114):
each received tool call becomes a `ToolCall` whose id is `call_<i>`, whose
index is its position, and whose arguments are the JSON-encoded string
`json.dumps(tc.function.arguments)`. -/
def enumOllamaToolCalls (i : Nat) : List OllamaToolCall → List ToolCall
  | [] => []
  | tc :: rest =>
      { id := "call_" ++ toString i,
        function :=
          { name := tc.function.name,
            arguments := Json.dumps tc.function.arguments },
        index := i } :: enumOllamaToolCalls (i + 1) rest

/-- Embeds the response assembly of `OllamaBackend.complete`
(src/rune/core/llm/backend/ollama.py lines 102-126): one assistant message
with the response content and the enumerated tool calls (`None` when the list
is empty, as `tool_calls if tool_calls else None`), and a usage built from
`prompt_eval_count or 0` and `eval_count or 0` (for these integer fields
`x or 0` coincides with None-defaulting to 0). -/
def ollamaComplete (response : OllamaChatResponse) : LLMChunk :=
  let toolCalls := enumOllamaToolCalls 0 response.message.toolCalls
  { message :=
      { role := Role.assistant,
        content := response.message.content,
        toolCalls := if toolCalls.isEmpty then none else some toolCalls },
    usage := some
      { promptTokens := response.promptEvalCount.getD 0,
        completionTokens := response.evalCount.getD 0 } }

/-- The keyword arguments `OllamaBackend.complete` and
`OllamaBackend.complete_streaming` pass to `AsyncClient.chat`
(src/rune/core/llm/backend/ollama.py lines 94-100 and 156-162), and the
headers that call contributes to the outgoing HTTP request beyond the client
library's own defaults. The `AsyncClient` is constructed as
`AsyncClient(host=..., timeout=...)` with no header argument, and `chat`
receives `model, messages, tools, options, stream` — nothing is derived from
the `extra_headers` parameter, so the contributed header list is empty. -/
structure OllamaChatKwargs where
  modelName : String
  stream : Bool
  extraRequestHeaders : List (String × String)
deriving DecidableEq, Repr

/-- Embeds the construction of that outgoing call for a given `extra_headers`
argument. -/
def ollamaChatKwargs (modelName : String) (stream : Bool)
    (extraHeaders : Option (List (String × String))) : OllamaChatKwargs :=
  let _ := extraHeaders
  { modelName := modelName, stream := stream, extraRequestHeaders := [] }

/-- C4: evaluating the embedded request construction at the failing input — a
session-affinity header supplied through `extra_headers` — shows that neither
`complete` (stream = false) nor `complete_streaming` (stream = true) forwards
it to the outgoing Ollama request, contradicting the backend contract's
pass-through requirement. -/
theorem ollama_extra_headers_not_forwarded :
    (ollamaChatKwargs "mistral-small" false
        (some [("X-Session-Affinity", "session-1")])).extraRequestHeaders = [] ∧
    (ollamaChatKwargs "mistral-small" true
        (some [("X-Session-Affinity", "session-1")])).extraRequestHeaders = [] :=
  ⟨rfl, rfl⟩

theorem enumOllamaToolCalls_length (tcs : List OllamaToolCall) (i : Nat) :
    (enumOllamaToolCalls i tcs).length = tcs.length := by
  induction tcs generalizing i with
  | nil => rfl
  | cons tc rest ih => simp [enumOllamaToolCalls, ih]

theorem enumOllamaToolCalls_getElem (tcs : List OllamaToolCall) (i j : Nat) :
    (enumOllamaToolCalls i tcs)[j]? = (tcs[j]?).map (fun tc =>
      { id := "call_" ++ toString (i + j),
        function :=
          { name := tc.function.name,
            arguments := Json.dumps tc.function.arguments },
        index := i + j }) := by
  induction tcs generalizing i j with
  | nil => simp [enumOllamaToolCalls]
  | cons tc rest ih =>
      cases j with
      | zero => simp [enumOllamaToolCalls]
      | succ j' =>
          have harith : i + 1 + j' = i + (j' + 1) := by omega
          simp [enumOllamaToolCalls, ih (i + 1) j', harith]

theorem enumOllamaToolCalls_indices (tcs : List OllamaToolCall) (i : Nat) :
    (enumOllamaToolCalls i tcs).map (fun tc => tc.index)
      = List.range' i tcs.length := by
  induction tcs generalizing i with
  | nil => rfl
  | cons tc rest ih => simp [enumOllamaToolCalls, ih, List.range']

/-- C7: a successful non-streaming Ollama completion yields exactly one
assistant message together with a usage whose token counts are non-negative
(given the server's counts are non-negative when reported); when tool calls
are returned they carry consecutive indices 0,1,… in the order received,
matching ids `call_<i>`, and each `function.arguments` is the JSON encoding of
the received arguments document. -/
theorem ollama_complete_message_and_usage (r : OllamaChatResponse)
    (hp : ∀ n, r.promptEvalCount = some n → 0 ≤ n)
    (he : ∀ n, r.evalCount = some n → 0 ≤ n) :
    (ollamaComplete r).message.role = Role.assistant ∧
    (∃ u, (ollamaComplete r).usage = some u ∧
      0 ≤ u.promptTokens ∧ 0 ≤ u.completionTokens) ∧
    (r.message.toolCalls = [] → (ollamaComplete r).message.toolCalls = none) ∧
    (r.message.toolCalls ≠ [] →
      ∃ tcs, (ollamaComplete r).message.toolCalls = some tcs ∧
        tcs.length = r.message.toolCalls.length ∧
        tcs.map (fun tc => tc.index) = List.range r.message.toolCalls.length ∧
        ∀ j, j < r.message.toolCalls.length →
          ∃ otc, r.message.toolCalls[j]? = some otc ∧
            tcs[j]? = some
              { id := "call_" ++ toString j,
                function :=
                  { name := otc.function.name,
                    arguments := Json.dumps otc.function.arguments },
                index := j }) := by
  refine ⟨rfl, ?_, ?_, ?_⟩
  · refine ⟨_, rfl, ?_, ?_⟩
    · cases hc : r.promptEvalCount with
      | none => simp [hc]
      | some n => simpa [hc] using hp n hc
    · cases hc : r.evalCount with
      | none => simp [hc]
      | some n => simpa [hc] using he n hc
  · intro hempty
    simp [ollamaComplete, hempty, enumOllamaToolCalls]
  · intro hne
    have hlen := enumOllamaToolCalls_length r.message.toolCalls 0
    have hnonempty : (enumOllamaToolCalls 0 r.message.toolCalls).isEmpty = false := by
      cases hcase : enumOllamaToolCalls 0 r.message.toolCalls with
      | nil =>
          rw [hcase] at hlen
          have h0 : r.message.toolCalls.length = 0 := by simpa using hlen.symm
          exact absurd (List.length_eq_zero.mp h0) hne
      | cons a l => rfl
    refine ⟨enumOllamaToolCalls 0 r.message.toolCalls, ?_, hlen, ?_, ?_⟩
    · simp [ollamaComplete, hnonempty]
    · rw [enumOllamaToolCalls_indices, List.range_eq_range']
    · intro j hj
      cases hotc : r.message.toolCalls[j]? with
      | none =>
          have hge : r.message.toolCalls.length ≤ j :=
            List.getElem?_eq_none_iff.mp hotc
          omega
      | some otc =>
          refine ⟨otc, rfl, ?_⟩
          rw [enumOllamaToolCalls_getElem, hotc]
          simp

/-- Witness for C7 at a concrete response: content "ok", two tool calls and
counts (7, 3); the assembled message is assistant-role with indices [0, 1] and
JSON-encoded argument strings. -/
theorem ollama_complete_message_and_usage_witness :
    (ollamaComplete
        { message :=
            { content := some "ok",
              toolCalls :=
                [{ function := { name := "read_file",
                                 arguments := Json.objVal [("path", Json.strVal "a.txt")] } },
                 { function := { name := "bash",
                                 arguments := Json.objVal [("cmd", Json.strVal "ls")] } }] },
          promptEvalCount := some 7,
          evalCount := some 3 }).message.role = Role.assistant ∧
    (∃ u, (ollamaComplete
        { message :=
            { content := some "ok",
              toolCalls :=
                [{ function := { name := "read_file",
                                 arguments := Json.objVal [("path", Json.strVal "a.txt")] } },
                 { function := { name := "bash",
                                 arguments := Json.objVal [("cmd", Json.strVal "ls")] } }] },
          promptEvalCount := some 7,
          evalCount := some 3 }).usage = some u ∧
      0 ≤ u.promptTokens ∧ 0 ≤ u.completionTokens) :=
  let r : OllamaChatResponse :=
    { message :=
        { content := some "ok",
          toolCalls :=
            [{ function := { name := "read_file",
                             arguments := Json.objVal [("path", Json.strVal "a.txt")] } },
             { function := { name := "bash",
                             arguments := Json.objVal [("cmd", Json.strVal "ls")] } }] },
      promptEvalCount := some 7,
      evalCount := some 3 }
  have h := ollama_complete_message_and_usage r
    (fun n hn => by
      simp only [r] at hn
      injection hn with hn'
      omega)
    (fun n hn => by
      simp only [r] at hn
      injection hn with hn'
      omega)
  ⟨h.1, h.2.1⟩

/-! ## C8 — append-only session persistence

Embedded from `SessionLogger.save_interaction`, `SessionLogger.persist_messages`
and `SessionLogger._get_title` in `src/rune/core/session/session_logger.py`
(lines 130-146 and 178-287). The two on-disk artifacts, `messages.jsonl` and
`meta.json`, become an explicit state record; `persist_messages` opens the
JSONL file in append mode and writes one `json.dumps` line per message, and
`persist_metadata` atomically replaces the sidecar. -/

/-- The role's serialized value. -/
def roleStr : Role → String
  | Role.system => "system"
  | Role.user => "user"
  | Role.assistant => "assistant"
  | Role.tool => "tool"

/-- `model_dump` of one tool call. -/
def toolCallJson (tc : ToolCall) : Json :=
  Json.objVal
    [("id", Json.strVal tc.id),
     ("function",
       Json.objVal
         [("name", Json.strVal tc.function.name),
          ("arguments", Json.strVal tc.function.arguments)]),
     ("index", Json.numVal tc.index)]

/-- `model_dump(exclude_none=True)` of one message: the role always, the
optional fields only when present. -/
def messageJson (m : LLMMessage) : Json :=
  Json.objVal
    ([("role", Json.strVal (roleStr m.role))]
      ++ (match m.content with
          | none => []
          | some c => [("content", Json.strVal c)])
      ++ (match m.toolCalls with
          | none => []
          | some tcs => [("tool_calls", Json.arrVal (tcs.map toolCallJson))]))

/-- The JSONL line `persist_messages` writes for one message. -/
def messageLine (m : LLMMessage) : String :=
  Json.dumps (messageJson m)

/-- Python's `str(content)` for an optional content field: `str(None)` is the
string "None". -/
def pyStrContent (content : Option String) : String :=
  match content with
  | none => "None"
  | some s => s

/-- Embeds `SessionLogger._get_title` (src/rune/core/session/session_logger.py
lines 130-146): the first user message's content truncated to 50 characters with
an ellipsis when longer, or "Untitled session". -/
def getTitle (messages : List LLMMessage) : String :=
  match messages.find? (fun m => m.role == Role.user) with
  | none => "Untitled session"
  | some m =>
      let text := pyStrContent m.content
      if text.length > 50 then text.take 50 ++ "…" else text.take 50

/-- The sidecar `meta.json` content, restricted to the fields the claim
inspects (the full dump also carries timing, git and config data). -/
structure SessionMeta where
  totalMessages : Nat
  stats : Json
  title : String
  systemPrompt : Option Json
  toolsAvailable : List String
deriving BEq

/-- The two persisted artifacts of one session directory: the lines of
`messages.jsonl` and the parsed `meta.json` when it exists. -/
structure SessionFiles where
  messagesLines : List String
  meta : Option SessionMeta
deriving BEq

/-- `messages` with the system messages removed
(`[m for m in messages if m.role != Role.system]`). -/
def nonSystemMessages (messages : List LLMMessage) : List LLMMessage :=
  messages.filter (fun m => !(m.role == Role.system))

/-- The `total_messages` count read back from the existing `meta.json`, 0 when
the sidecar does not exist yet. -/
def sessionOldTotal (files : SessionFiles) : Nat :=
  match files.meta with
  | none => 0
  | some m => m.totalMessages

/-- Embeds `SessionLogger.save_interaction`
(src/rune/core/session/session_logger.py lines 197-287) on its success path:
when disabled, nothing happens; otherwise the non-system messages past the
recorded `total_messages` are appended to `messages.jsonl` one JSON line each,
and — only when there was at least one such message — the sidecar is rewritten
with the new count, the stats, the title, the leading system message's dump and
the available tools. The early `return` when no new messages exist leaves both
files untouched. -/
def saveInteraction (enabled : Bool) (files : SessionFiles)
    (messages : List LLMMessage) (stats : Json) (toolsAvailable : List String) :
    SessionFiles :=
  if !enabled then files
  else
    let oldTotal := sessionOldTotal files
    let nonSystem := nonSystemMessages messages
    let newMessages := nonSystem.drop oldTotal
    if newMessages.isEmpty then files
    else
      { messagesLines := files.messagesLines ++ newMessages.map messageLine,
        meta := some
          { totalMessages := nonSystem.length,
            stats := stats,
            title := getTitle messages,
            systemPrompt :=
              match messages with
              | [] => none
              | m :: _ =>
                  if m.role == Role.system then some (messageJson m) else none,
            toolsAvailable := toolsAvailable } }

/-- Counterexample for C8 as stated: a call to `save_interaction` whose
messages contain nothing new (the one non-system message is already counted by
the recorded `total_messages`) returns before writing the sidecar, so the
claim's "writes a sidecar meta.json containing the session stats" fails — the
old sidecar still carries the old stats, not the stats passed to this call. -/
theorem save_interaction_no_meta_when_nothing_new_cx :
    saveInteraction true
        { messagesLines := ["line0"],
          meta := some
            { totalMessages := 1, stats := Json.numVal 1, title := "hi",
              systemPrompt := none, toolsAvailable := [] } }
        [{ role := Role.user, content := some "hi" }]
        (Json.numVal 2) ["bash"]
      = { messagesLines := ["line0"],
          meta := some
            { totalMessages := 1, stats := Json.numVal 1, title := "hi",
              systemPrompt := none, toolsAvailable := [] } } ∧
    Json.numVal 1 ≠ Json.numVal 2 := by
  constructor
  · rfl
  · intro h
    injection h with h'
    omega

/-- C8 (amended): each enabled call appends to `messages.jsonl` exactly the
non-system messages past the recorded `total_messages`, one JSON line each,
leaving every previously written line unchanged; every appended line is the
dump of a non-system message (the system message is never written); and when
at least one message was appended the sidecar `meta.json` is rewritten with
the new count, the session stats, the title, the system-prompt snapshot and
the available tools — a call with nothing new to persist leaves both files
untouched (in particular it does not rewrite the sidecar). -/
theorem save_interaction_append_only (files : SessionFiles)
    (messages : List LLMMessage) (stats : Json) (toolsAvailable : List String) :
    ((saveInteraction true files messages stats toolsAvailable).messagesLines
      = files.messagesLines
        ++ ((nonSystemMessages messages).drop (sessionOldTotal files)).map
            messageLine) ∧
    (∀ line ∈ ((nonSystemMessages messages).drop (sessionOldTotal files)).map
        messageLine,
      ∃ m, m ∈ messages ∧ m.role ≠ Role.system ∧ line = messageLine m) ∧
    ((nonSystemMessages messages).drop (sessionOldTotal files) ≠ [] →
      (saveInteraction true files messages stats toolsAvailable).meta
        = some
            { totalMessages := (nonSystemMessages messages).length,
              stats := stats,
              title := getTitle messages,
              systemPrompt :=
                match messages with
                | [] => none
                | m :: _ =>
                    if m.role == Role.system then some (messageJson m) else none,
              toolsAvailable := toolsAvailable }) ∧
    ((nonSystemMessages messages).drop (sessionOldTotal files) = [] →
      saveInteraction true files messages stats toolsAvailable = files) := by
  refine ⟨?_, ?_, ?_, ?_⟩
  · unfold saveInteraction
    cases hcase : ((nonSystemMessages messages).drop (sessionOldTotal files)).isEmpty with
    | true =>
        have hnil := List.isEmpty_iff.mp hcase
        simp [hcase, hnil]
    | false => simp [hcase]
  · intro line hline
    obtain ⟨m, hm, hml⟩ := List.mem_map.mp hline
    have hmem : m ∈ nonSystemMessages messages :=
      List.drop_subset _ _ hm
    have hmem2 := List.mem_filter.mp hmem
    refine ⟨m, hmem2.1, ?_, hml.symm⟩
    intro hsys
    have h2 := hmem2.2
    rw [hsys] at h2
    exact absurd h2 (by decide)
  · intro hne
    have hcase : ((nonSystemMessages messages).drop (sessionOldTotal files)).isEmpty
        = false := by
      cases hc : ((nonSystemMessages messages).drop (sessionOldTotal files)) with
      | nil => exact absurd hc hne
      | cons a l => rfl
    unfold saveInteraction
    simp [hcase]
  · intro hnil
    unfold saveInteraction
    simp [hnil]

/-- Witness for C8 (amended) at a concrete call: a system and a user message,
no sidecar yet; one line is appended and the sidecar records count 1, the
stats, title "hello", the system-prompt dump and the tools. -/
theorem save_interaction_append_only_witness :
    ((nonSystemMessages
        [{ role := Role.system, content := some "sys" },
         { role := Role.user, content := some "hello" }]).drop
        (sessionOldTotal { messagesLines := [], meta := none }) ≠ []) ∧
    (saveInteraction true { messagesLines := [], meta := none }
        [{ role := Role.system, content := some "sys" },
         { role := Role.user, content := some "hello" }]
        (Json.numVal 7) ["bash"]).meta
      = some
          { totalMessages := (nonSystemMessages
              [{ role := Role.system, content := some "sys" },
               { role := Role.user, content := some "hello" }]).length,
            stats := Json.numVal 7,
            title := getTitle
              [{ role := Role.system, content := some "sys" },
               { role := Role.user, content := some "hello" }],
            systemPrompt := some (messageJson
              { role := Role.system, content := some "sys" }),
            toolsAvailable := ["bash"] } :=
  ⟨by decide,
   (save_interaction_append_only { messagesLines := [], meta := none }
      [{ role := Role.system, content := some "sys" },
       { role := Role.user, content := some "hello" }]
      (Json.numVal 7) ["bash"]).2.2.1 (by decide)⟩

end Rune
